import Mathlib

/-!
# Verification of the multistream-select initiator

A shallow embedding of `src/multistream.rs`: a big-endian 7-bit-group varint
codec, a length-prefixed line codec and the initiator-side negotiation loop.

Byte streams are modelled as `List Nat` (each entry one byte), `u64` values as
`Nat` with explicit `% 2 ^ 64` where Rust truncates, strings as their UTF-8
byte sequences, and the fallible / stateful Rust functions as pure functions
returning `Except` results together with the remaining input stream.
-/

namespace Multistream

/-- The error taxonomy of the program.  The Rust code uses `std::io::Error`
values with distinct messages; each constructor corresponds to one of the
distinct error construction sites (plus `ioError` for propagated I/O errors
such as reading from an exhausted stream). -/
inductive MsErr where
  /-- an underlying read failed (stream exhausted before enough bytes) -/
  | ioError
  /-- "varint line serialisation error: invalid length" -/
  | invalidLineLength
  /-- "varint line parsing error: length is zero" -/
  | emptyLine
  /-- "varint line parsing error: line doesn't end in newline" -/
  | missingTerminator
  /-- "varint line parsing error: line is not valid UTF-8" -/
  | invalidUtf8
  /-- "varint parsing error: initial byte is 0x80" -/
  | malformedVarint
  /-- "varint parsing error: varint is oversized" -/
  | varintTooLarge
  /-- "remote offers unexpected multistream protocol version" -/
  | unexpectedVersion
  /-- "remote replied with unexpected protocol specifier" -/
  | unexpectedResponse
  /-- "empty protocol list" -/
  | emptyProtocolList
deriving DecidableEq, Repr

/-- The ten bytes `val[0] .. val[9]` laid out by `serialise_varint` before
trimming: group 0 carries bit 63 only, groups 1–8 carry seven bits each at
offsets 56, 49, …, 7, group 9 carries bits 6–0 without a continuation flag. -/
def varintGroups (value : Nat) : List Nat :=
  [0x80 ||| ((value >>> 63) &&& 0x1),
   0x80 ||| ((value >>> 56) &&& 0x7f),
   0x80 ||| ((value >>> 49) &&& 0x7f),
   0x80 ||| ((value >>> 42) &&& 0x7f),
   0x80 ||| ((value >>> 35) &&& 0x7f),
   0x80 ||| ((value >>> 28) &&& 0x7f),
   0x80 ||| ((value >>> 21) &&& 0x7f),
   0x80 ||| ((value >>> 14) &&& 0x7f),
   0x80 ||| ((value >>> 7) &&& 0x7f),
   value &&& 0x7f]

/-- The trimming loop of `serialise_varint`: scan the groups from index 0,
and at the first group that is not the `0x80` sentinel extend `dst` with that
group and all following ones.  (If every group were `0x80` nothing would be
emitted, exactly as in the Rust `for`/`break` loop.) -/
def svEmit (dst : List Nat) : List Nat → List Nat
  | [] => dst
  | b :: rest => if b ≠ 0x80 then dst ++ (b :: rest) else svEmit dst rest

/-- `serialise_varint(dst, value)`: append the minimal big-endian 7-bit-group
encoding of `value` to `dst`. -/
def serialise_varint (dst : List Nat) (value : Nat) : List Nat :=
  svEmit dst (varintGroups value)

/-- `serialise_varint_line(dst, line)`: append
`varint(line.len() + 1) || line || 0x0A` to `dst`.  The only failure is the
`try_into::<u64>` conversion of `line.len() + 1` (on the modelled 64-bit
target `usize` and `u64` coincide, so the guard is `< 2 ^ 64`). -/
def serialise_varint_line (dst : List Nat) (line : List Nat) :
    Except MsErr (List Nat) :=
  if line.length + 1 < 2 ^ 64 then
    .ok (serialise_varint dst (line.length + 1) ++ line ++ [0x0a])
  else
    .error .invalidLineLength

/-- The `for i in 0..10` body of `deserialise_varint`.  `fuel` counts the
remaining iterations (10 at entry), `i` is the Rust loop index, `value` the
accumulator.  Reading a byte consumes the head of the input list; an empty
list is an exhausted stream, so `read_exact` fails.  The accumulator update
mirrors `value = (value << 7) | (byte & 0x7f)` on `u64`. -/
def dvLoop : Nat → Nat → Nat → List Nat → Except MsErr Nat × List Nat
  | 0, _, _, inp => (.error .varintTooLarge, inp)
  | _ + 1, _, _, [] => (.error .ioError, [])
  | fuel + 1, i, value, byte :: rest =>
    if i = 0 ∧ byte = 0x80 then
      (.error .malformedVarint, rest)
    else
      let value := ((value <<< 7) % 2 ^ 64) ||| (byte &&& 0x7f)
      if byte &&& 0x80 = 0 then
        (.ok value, rest)
      else
        dvLoop fuel (i + 1) value rest

/-- `deserialise_varint(stream)`: decode one varint from the front of the
stream, returning the value (or the error) and the unread remainder. -/
def deserialise_varint (inp : List Nat) : Except MsErr Nat × List Nat :=
  dvLoop 10 0 0 inp

/-- Whether a byte sequence is valid UTF-8, following the table used by
Rust's `String::from_utf8` (RFC 3629: shortest-form sequences only, no
surrogates, maximum scalar value U+10FFFF). -/
def validUtf8 : List Nat → Bool
  | [] => true
  | b0 :: rest =>
    if b0 ≤ 0x7f then
      validUtf8 rest
    else if 0xc2 ≤ b0 ∧ b0 ≤ 0xdf then
      match rest with
      | b1 :: rest1 => decide (0x80 ≤ b1 ∧ b1 ≤ 0xbf) && validUtf8 rest1
      | [] => false
    else if b0 = 0xe0 then
      match rest with
      | b1 :: b2 :: rest2 =>
        decide (0xa0 ≤ b1 ∧ b1 ≤ 0xbf) && decide (0x80 ≤ b2 ∧ b2 ≤ 0xbf) &&
          validUtf8 rest2
      | _ => false
    else if (0xe1 ≤ b0 ∧ b0 ≤ 0xec) ∨ (0xee ≤ b0 ∧ b0 ≤ 0xef) then
      match rest with
      | b1 :: b2 :: rest2 =>
        decide (0x80 ≤ b1 ∧ b1 ≤ 0xbf) && decide (0x80 ≤ b2 ∧ b2 ≤ 0xbf) &&
          validUtf8 rest2
      | _ => false
    else if b0 = 0xed then
      match rest with
      | b1 :: b2 :: rest2 =>
        decide (0x80 ≤ b1 ∧ b1 ≤ 0x9f) && decide (0x80 ≤ b2 ∧ b2 ≤ 0xbf) &&
          validUtf8 rest2
      | _ => false
    else if b0 = 0xf0 then
      match rest with
      | b1 :: b2 :: b3 :: rest3 =>
        decide (0x90 ≤ b1 ∧ b1 ≤ 0xbf) && decide (0x80 ≤ b2 ∧ b2 ≤ 0xbf) &&
          decide (0x80 ≤ b3 ∧ b3 ≤ 0xbf) && validUtf8 rest3
      | _ => false
    else if 0xf1 ≤ b0 ∧ b0 ≤ 0xf3 then
      match rest with
      | b1 :: b2 :: b3 :: rest3 =>
        decide (0x80 ≤ b1 ∧ b1 ≤ 0xbf) && decide (0x80 ≤ b2 ∧ b2 ≤ 0xbf) &&
          decide (0x80 ≤ b3 ∧ b3 ≤ 0xbf) && validUtf8 rest3
      | _ => false
    else if b0 = 0xf4 then
      match rest with
      | b1 :: b2 :: b3 :: rest3 =>
        decide (0x80 ≤ b1 ∧ b1 ≤ 0x8f) && decide (0x80 ≤ b2 ∧ b2 ≤ 0xbf) &&
          decide (0x80 ≤ b3 ∧ b3 ≤ 0xbf) && validUtf8 rest3
      | _ => false
    else
      false

/-- `deserialise_varint_line(stream)`: decode a varint length `len`, reject
`len = 0`, read exactly `len` bytes, pop the trailing byte and require it to
be `0x0A`, and require the rest to be valid UTF-8.  (The `u64 → usize`
conversion in the Rust code never fails on the modelled 64-bit target.) -/
def deserialise_varint_line (inp : List Nat) :
    Except MsErr (List Nat) × List Nat :=
  match deserialise_varint inp with
  | (.error e, rest) => (.error e, rest)
  | (.ok len, rest) =>
    if len = 0 then
      (.error .emptyLine, rest)
    else if rest.length < len then
      (.error .ioError, [])
    else
      let buf := rest.take len
      let rest1 := rest.drop len
      if buf.getLast? ≠ some 0x0a then
        (.error .missingTerminator, rest1)
      else if validUtf8 buf.dropLast then
        (.ok buf.dropLast, rest1)
      else
        (.error .invalidUtf8, rest1)

/-- The UTF-8 bytes of the literal `"/multistream/1.0.0"`. -/
def MULTISTREAM_PROTOCOL : List Nat :=
  [47, 109, 117, 108, 116, 105, 115, 116, 114, 101, 97, 109, 47, 49, 46, 48,
   46, 48]

/-- The UTF-8 bytes of the rejection token `"na"`. -/
def naBytes : List Nat := [110, 97]

/-- The two sides of the duplex stream seen by `initiate`: `inp` are the
bytes not yet read from the peer, `out` the bytes written so far. -/
structure MsState where
  inp : List Nat
  out : List Nat
deriving DecidableEq, Repr

/-- Reading the response in round `i` of `initiate`: decode one line; in
round 0 require it to equal the version literal and decode a second line
(the actual reply to the first proposal). -/
def readResp (inp : List Nat) (i : Nat) : Except MsErr (List Nat) × List Nat :=
  match deserialise_varint_line inp with
  | (.error e, inp1) => (.error e, inp1)
  | (.ok resp, inp1) =>
    if i = 0 then
      if resp ≠ MULTISTREAM_PROTOCOL then
        (.error .unexpectedVersion, inp1)
      else
        deserialise_varint_line inp1
    else
      (.ok resp, inp1)

/-- The `for (i, protocol)` loop of `initiate`.  `hm` is the handshake buffer
carried into the round (the already-serialised version line in round 0, empty
afterwards, mirroring `handshake_message.clear()`).  Each round appends the
framed candidate to `hm`, writes the buffer, reads the reply (with the
round-0 version echo handled by `readResp`), and either selects, fails, or
moves on past an `"na"`. -/
def initiateLoop :
    List Nat → List Nat → List Nat → Nat → List (List Nat) →
      Except MsErr (Option Nat) × MsState
  | inp, out, _, _, [] => (.ok none, ⟨inp, out⟩)
  | inp, out, hm, i, p :: ps =>
    match serialise_varint_line hm p with
    | .error e => (.error e, ⟨inp, out⟩)
    | .ok msg =>
      match readResp inp i with
      | (.error e, inp1) => (.error e, ⟨inp1, out ++ msg⟩)
      | (.ok resp, inp1) =>
        if resp = p then
          (.ok (some i), ⟨inp1, out ++ msg⟩)
        else if resp ≠ naBytes then
          (.error .unexpectedResponse, ⟨inp1, out ++ msg⟩)
        else
          initiateLoop inp1 (out ++ msg) [] (i + 1) ps

/-- `initiate(stream, protocols)`: fail on an empty candidate list, else
serialise the version line into the handshake buffer and run the proposal
loop.  Returns the outcome (`some i` selected, `none` no match, or an error)
together with the final stream state. -/
def initiate (st : MsState) (protocols : List (List Nat)) :
    Except MsErr (Option Nat) × MsState :=
  if protocols.isEmpty then
    (.error .emptyProtocolList, st)
  else
    match serialise_varint_line [] MULTISTREAM_PROTOCOL with
    | .error e => (.error e, st)
    | .ok hm => initiateLoop st.inp st.out hm 0 protocols

/-- The framed wire form of one line: `varint(len + 1) || payload || 0x0A`. -/
def frame (s : List Nat) : List Nat :=
  serialise_varint [] (s.length + 1) ++ s ++ [0x0a]

/-- The concatenated framed lines of a list of payloads. -/
def framesOf (ps : List (List Nat)) : List Nat := (ps.map frame).flatten

/-- `k` consecutive framed `"na"` rejection lines. -/
def naFrames (k : Nat) : List Nat := framesOf (List.replicate k naBytes)

/-- One accumulator update of the varint decoder in arithmetic form:
`value = (value << 7) | (byte & 0x7f)` on `u64` equals
`128 * (value % 2 ^ 57) + (byte % 128)`. -/
def decStep (acc x : Nat) : Nat := 128 * (acc % 2 ^ 57) + x

end Multistream

namespace Multistream

/-! ## Bitwise operations in arithmetic form -/

lemma or128 (y : Nat) (h : y < 128) : 128 ||| y = 128 + y := by
  have h2 := Nat.mul_add_lt_is_or (show y < 2 ^ 7 by omega) 1
  norm_num at h2
  exact h2.symm

lemma orMulAdd (a y : Nat) (h : y < 128) : 128 * a ||| y = 128 * a + y := by
  have h2 := Nat.mul_add_lt_is_or (show y < 2 ^ 7 by omega) a
  norm_num at h2
  exact h2.symm

lemma and127 (x : Nat) : x &&& 127 = x % 128 := by
  have h := Nat.and_pow_two_sub_one_eq_mod x 7
  norm_num at h
  exact h

lemma and128_lo (x : Nat) (h : x < 128) : x &&& 128 = 0 := by
  rw [show (128 : Nat) = 2 ^ 7 by norm_num, Nat.and_two_pow,
    Nat.testBit_lt_two_pow (by omega)]
  simp

lemma and128_hi (x : Nat) (h : x < 128) : (128 + x) &&& 128 = 128 := by
  rw [show (128 : Nat) = 2 ^ 7 by norm_num, Nat.and_two_pow,
    Nat.testBit_two_pow_add_eq, Nat.testBit_lt_two_pow (by omega)]
  simp

lemma accStep (value byte : Nat) :
    ((value <<< 7) % 2 ^ 64) ||| (byte &&& 127) = decStep value (byte % 128) := by
  have h1 : (value <<< 7) % 2 ^ 64 = 128 * (value % 2 ^ 57) := by
    rw [Nat.shiftLeft_eq, show (2 : Nat) ^ 64 = 2 ^ 57 * 2 ^ 7 by norm_num,
      Nat.mul_mod_mul_right]
    omega
  rw [h1, and127, orMulAdd _ _ (Nat.mod_lt _ (by norm_num))]
  rfl

/-! ## The encoder's group list, in arithmetic form -/

lemma group_eq (v k : Nat) :
    128 ||| ((v >>> k) &&& 127) = 128 + v / 2 ^ k % 128 := by
  rw [Nat.shiftRight_eq_div_pow, and127, or128 _ (Nat.mod_lt _ (by norm_num))]

lemma group0_eq (v : Nat) :
    128 ||| ((v >>> 63) &&& 1) = 128 + v / 2 ^ 63 % 2 := by
  rw [Nat.shiftRight_eq_div_pow, Nat.and_one_is_mod,
    or128 _ ((Nat.mod_lt _ (by norm_num)).trans (by norm_num))]

lemma varintGroups_eq (v : Nat) :
    varintGroups v =
      [128 + v / 9223372036854775808 % 2,
       128 + v / 72057594037927936 % 128,
       128 + v / 562949953421312 % 128,
       128 + v / 4398046511104 % 128,
       128 + v / 34359738368 % 128,
       128 + v / 268435456 % 128,
       128 + v / 2097152 % 128,
       128 + v / 16384 % 128,
       128 + v / 128 % 128,
       v % 128] := by
  simp only [varintGroups, group0_eq, group_eq]
  rw [and127]
  norm_num

/-! ## The trimming loop -/

lemma svEmit_skip (dst : List Nat) (gs : List Nat) :
    svEmit dst (128 :: gs) = svEmit dst gs := by
  simp [svEmit]

lemma svEmit_cons (dst : List Nat) (g : Nat) (gs : List Nat) (h : g ≠ 128) :
    svEmit dst (g :: gs) = dst ++ g :: gs := by
  simp [svEmit, h]

lemma svEmit_append (dst : List Nat) (gs : List Nat) :
    svEmit dst gs = dst ++ svEmit [] gs := by
  induction gs with
  | nil => simp [svEmit]
  | cons g gs ih =>
    by_cases h : g = 128
    · subst h
      rw [svEmit_skip, svEmit_skip, ih]
    · rw [svEmit_cons _ _ _ h, svEmit_cons _ _ _ h]
      simp

lemma serialise_varint_append (dst : List Nat) (v : Nat) :
    serialise_varint dst v = dst ++ serialise_varint [] v := by
  unfold serialise_varint
  exact svEmit_append dst (varintGroups v)

/-! ## Decoder step lemmas -/

lemma dvLoop_last (fuel i acc b : Nat) (rest : List Nat) (hb : b < 128) :
    dvLoop (fuel + 1) i acc (b :: rest) = (.ok (decStep acc b), rest) := by
  simp only [dvLoop, accStep]
  rw [if_neg (by omega : ¬(i = 0 ∧ b = 128))]
  simp [and128_lo b hb, Nat.mod_eq_of_lt hb]

lemma dvLoop_cont (fuel i acc x : Nat) (rest : List Nat) (hx : x < 128)
    (hx0 : i = 0 → x ≠ 0) :
    dvLoop (fuel + 1) i acc ((128 + x) :: rest)
      = dvLoop fuel (i + 1) (decStep acc x) rest := by
  simp only [dvLoop, accStep]
  rw [if_neg (by rintro ⟨h0, h128⟩; exact hx0 h0 (by omega))]
  simp [and128_hi x hx, Nat.add_mod_left, Nat.mod_eq_of_lt hx]

lemma dvLoop_decodes (xs : List Nat) :
    ∀ (fuel i acc b : Nat) (rest : List Nat),
      xs.length + 1 ≤ fuel → (∀ x ∈ xs, x < 128) → b < 128 →
      (i = 0 → xs.head? ≠ some 0) →
      dvLoop fuel i acc (xs.map (128 + ·) ++ b :: rest)
        = (.ok (decStep (xs.foldl decStep acc) b), rest) := by
  induction xs with
  | nil =>
    intro fuel i acc b rest hfuel _ hb _
    obtain ⟨fuel, rfl⟩ : ∃ f, fuel = f + 1 := ⟨fuel - 1, by omega⟩
    simpa using dvLoop_last fuel i acc b rest hb
  | cons x xs ih =>
    intro fuel i acc b rest hfuel hxs hb h0
    obtain ⟨fuel, rfl⟩ : ∃ f, fuel = f + 1 := ⟨fuel - 1, by omega⟩
    simp only [List.map_cons, List.cons_append]
    rw [dvLoop_cont fuel i acc x _ (hxs x (by simp)) (by simpa using h0)]
    rw [ih fuel (i + 1) (decStep acc x) b rest (by simpa using hfuel)
      (fun y hy => hxs y (by simp [hy])) hb (by omega)]
    simp


/-! ## Per-magnitude characterisation of the varint encoder, and round trips -/

lemma sv_eq_1 (v : Nat) (h2 : v < 128) :
    serialise_varint [] v =
      [v] := by
  unfold serialise_varint
  rw [varintGroups_eq,
    show v / 9223372036854775808 % 2 = 0 by omega,
    show v / 72057594037927936 % 128 = 0 by omega,
    show v / 562949953421312 % 128 = 0 by omega,
    show v / 4398046511104 % 128 = 0 by omega,
    show v / 34359738368 % 128 = 0 by omega,
    show v / 268435456 % 128 = 0 by omega,
    show v / 2097152 % 128 = 0 by omega,
    show v / 16384 % 128 = 0 by omega,
    show v / 128 % 128 = 0 by omega,
    show v % 128 = v by omega]
  norm_num [svEmit_skip]
  rw [svEmit_cons _ _ _ (by omega)]
  simp

lemma rt_1 (v : Nat) (h2 : v < 128) (tail : List Nat) :
    deserialise_varint (serialise_varint [] v ++ tail) = (.ok v, tail) := by
  rw [sv_eq_1 v h2]
  have h := dvLoop_decodes [] 10 0 0 (v)
    tail (by simp) (by simp) (by omega)
    (by simp)
  simp only [List.map_cons, List.map_nil, List.foldl_cons, List.foldl_nil,
    List.cons_append, List.nil_append] at h
  rw [show decStep 0 v = v by simp only [decStep]; omega] at h
  unfold deserialise_varint
  simp only [List.cons_append, List.nil_append]
  exact h

lemma sv_eq_2 (v : Nat) (h1 : 128 ≤ v) (h2 : v < 16384) :
    serialise_varint [] v =
      [128 + v / 128, v % 128] := by
  unfold serialise_varint
  rw [varintGroups_eq,
    show v / 9223372036854775808 % 2 = 0 by omega,
    show v / 72057594037927936 % 128 = 0 by omega,
    show v / 562949953421312 % 128 = 0 by omega,
    show v / 4398046511104 % 128 = 0 by omega,
    show v / 34359738368 % 128 = 0 by omega,
    show v / 268435456 % 128 = 0 by omega,
    show v / 2097152 % 128 = 0 by omega,
    show v / 16384 % 128 = 0 by omega,
    show v / 128 % 128 = v / 128 by omega]
  norm_num [svEmit_skip]
  rw [svEmit_cons _ _ _ (by omega)]
  simp

lemma rt_2 (v : Nat) (h1 : 128 ≤ v) (h2 : v < 16384) (tail : List Nat) :
    deserialise_varint (serialise_varint [] v ++ tail) = (.ok v, tail) := by
  rw [sv_eq_2 v h1 h2]
  have h := dvLoop_decodes [v / 128] 10 0 0 (v % 128)
    tail (by simp) (by intro x hx; simp at hx; subst hx; omega) (by omega)
    (by intro _; simp; omega)
  simp only [List.map_cons, List.map_nil, List.foldl_cons, List.foldl_nil,
    List.cons_append, List.nil_append] at h
  rw [show decStep (decStep (0) (v / 128)) (v % 128) = v by simp only [decStep]; omega] at h
  unfold deserialise_varint
  simp only [List.cons_append, List.nil_append]
  exact h

lemma sv_eq_3 (v : Nat) (h1 : 16384 ≤ v) (h2 : v < 2097152) :
    serialise_varint [] v =
      [128 + v / 16384, 128 + v / 128 % 128, v % 128] := by
  unfold serialise_varint
  rw [varintGroups_eq,
    show v / 9223372036854775808 % 2 = 0 by omega,
    show v / 72057594037927936 % 128 = 0 by omega,
    show v / 562949953421312 % 128 = 0 by omega,
    show v / 4398046511104 % 128 = 0 by omega,
    show v / 34359738368 % 128 = 0 by omega,
    show v / 268435456 % 128 = 0 by omega,
    show v / 2097152 % 128 = 0 by omega,
    show v / 16384 % 128 = v / 16384 by omega]
  norm_num [svEmit_skip]
  rw [svEmit_cons _ _ _ (by omega)]
  simp

lemma rt_3 (v : Nat) (h1 : 16384 ≤ v) (h2 : v < 2097152) (tail : List Nat) :
    deserialise_varint (serialise_varint [] v ++ tail) = (.ok v, tail) := by
  rw [sv_eq_3 v h1 h2]
  have h := dvLoop_decodes [v / 16384, v / 128 % 128] 10 0 0 (v % 128)
    tail (by simp) (by intro x hx; simp at hx; rcases hx with rfl | rfl <;> omega) (by omega)
    (by intro _; simp; omega)
  simp only [List.map_cons, List.map_nil, List.foldl_cons, List.foldl_nil,
    List.cons_append, List.nil_append] at h
  rw [show decStep (decStep (decStep (0) (v / 16384)) (v / 128 % 128)) (v % 128) = v by simp only [decStep]; omega] at h
  unfold deserialise_varint
  simp only [List.cons_append, List.nil_append]
  exact h

lemma sv_eq_4 (v : Nat) (h1 : 2097152 ≤ v) (h2 : v < 268435456) :
    serialise_varint [] v =
      [128 + v / 2097152, 128 + v / 16384 % 128, 128 + v / 128 % 128, v % 128] := by
  unfold serialise_varint
  rw [varintGroups_eq,
    show v / 9223372036854775808 % 2 = 0 by omega,
    show v / 72057594037927936 % 128 = 0 by omega,
    show v / 562949953421312 % 128 = 0 by omega,
    show v / 4398046511104 % 128 = 0 by omega,
    show v / 34359738368 % 128 = 0 by omega,
    show v / 268435456 % 128 = 0 by omega,
    show v / 2097152 % 128 = v / 2097152 by omega]
  norm_num [svEmit_skip]
  rw [svEmit_cons _ _ _ (by omega)]
  simp

lemma rt_4 (v : Nat) (h1 : 2097152 ≤ v) (h2 : v < 268435456) (tail : List Nat) :
    deserialise_varint (serialise_varint [] v ++ tail) = (.ok v, tail) := by
  rw [sv_eq_4 v h1 h2]
  have h := dvLoop_decodes [v / 2097152, v / 16384 % 128, v / 128 % 128] 10 0 0 (v % 128)
    tail (by simp) (by intro x hx; simp at hx; rcases hx with rfl | rfl | rfl <;> omega) (by omega)
    (by intro _; simp; omega)
  simp only [List.map_cons, List.map_nil, List.foldl_cons, List.foldl_nil,
    List.cons_append, List.nil_append] at h
  rw [show decStep (decStep (decStep (decStep (0) (v / 2097152)) (v / 16384 % 128)) (v / 128 % 128)) (v % 128) = v by simp only [decStep]; omega] at h
  unfold deserialise_varint
  simp only [List.cons_append, List.nil_append]
  exact h

lemma sv_eq_5 (v : Nat) (h1 : 268435456 ≤ v) (h2 : v < 34359738368) :
    serialise_varint [] v =
      [128 + v / 268435456, 128 + v / 2097152 % 128, 128 + v / 16384 % 128, 128 + v / 128 % 128, v % 128] := by
  unfold serialise_varint
  rw [varintGroups_eq,
    show v / 9223372036854775808 % 2 = 0 by omega,
    show v / 72057594037927936 % 128 = 0 by omega,
    show v / 562949953421312 % 128 = 0 by omega,
    show v / 4398046511104 % 128 = 0 by omega,
    show v / 34359738368 % 128 = 0 by omega,
    show v / 268435456 % 128 = v / 268435456 by omega]
  norm_num [svEmit_skip]
  rw [svEmit_cons _ _ _ (by omega)]
  simp

lemma rt_5 (v : Nat) (h1 : 268435456 ≤ v) (h2 : v < 34359738368) (tail : List Nat) :
    deserialise_varint (serialise_varint [] v ++ tail) = (.ok v, tail) := by
  rw [sv_eq_5 v h1 h2]
  have h := dvLoop_decodes [v / 268435456, v / 2097152 % 128, v / 16384 % 128, v / 128 % 128] 10 0 0 (v % 128)
    tail (by simp) (by intro x hx; simp at hx; rcases hx with rfl | rfl | rfl | rfl <;> omega) (by omega)
    (by intro _; simp; omega)
  simp only [List.map_cons, List.map_nil, List.foldl_cons, List.foldl_nil,
    List.cons_append, List.nil_append] at h
  rw [show decStep (decStep (decStep (decStep (decStep (0) (v / 268435456)) (v / 2097152 % 128)) (v / 16384 % 128)) (v / 128 % 128)) (v % 128) = v by simp only [decStep]; omega] at h
  unfold deserialise_varint
  simp only [List.cons_append, List.nil_append]
  exact h

lemma sv_eq_6 (v : Nat) (h1 : 34359738368 ≤ v) (h2 : v < 4398046511104) :
    serialise_varint [] v =
      [128 + v / 34359738368, 128 + v / 268435456 % 128, 128 + v / 2097152 % 128, 128 + v / 16384 % 128, 128 + v / 128 % 128, v % 128] := by
  unfold serialise_varint
  rw [varintGroups_eq,
    show v / 9223372036854775808 % 2 = 0 by omega,
    show v / 72057594037927936 % 128 = 0 by omega,
    show v / 562949953421312 % 128 = 0 by omega,
    show v / 4398046511104 % 128 = 0 by omega,
    show v / 34359738368 % 128 = v / 34359738368 by omega]
  norm_num [svEmit_skip]
  rw [svEmit_cons _ _ _ (by omega)]
  simp

lemma rt_6 (v : Nat) (h1 : 34359738368 ≤ v) (h2 : v < 4398046511104) (tail : List Nat) :
    deserialise_varint (serialise_varint [] v ++ tail) = (.ok v, tail) := by
  rw [sv_eq_6 v h1 h2]
  have h := dvLoop_decodes [v / 34359738368, v / 268435456 % 128, v / 2097152 % 128, v / 16384 % 128, v / 128 % 128] 10 0 0 (v % 128)
    tail (by simp) (by intro x hx; simp at hx; rcases hx with rfl | rfl | rfl | rfl | rfl <;> omega) (by omega)
    (by intro _; simp; omega)
  simp only [List.map_cons, List.map_nil, List.foldl_cons, List.foldl_nil,
    List.cons_append, List.nil_append] at h
  rw [show decStep (decStep (decStep (decStep (decStep (decStep (0) (v / 34359738368)) (v / 268435456 % 128)) (v / 2097152 % 128)) (v / 16384 % 128)) (v / 128 % 128)) (v % 128) = v by simp only [decStep]; omega] at h
  unfold deserialise_varint
  simp only [List.cons_append, List.nil_append]
  exact h

lemma sv_eq_7 (v : Nat) (h1 : 4398046511104 ≤ v) (h2 : v < 562949953421312) :
    serialise_varint [] v =
      [128 + v / 4398046511104, 128 + v / 34359738368 % 128, 128 + v / 268435456 % 128, 128 + v / 2097152 % 128, 128 + v / 16384 % 128, 128 + v / 128 % 128, v % 128] := by
  unfold serialise_varint
  rw [varintGroups_eq,
    show v / 9223372036854775808 % 2 = 0 by omega,
    show v / 72057594037927936 % 128 = 0 by omega,
    show v / 562949953421312 % 128 = 0 by omega,
    show v / 4398046511104 % 128 = v / 4398046511104 by omega]
  norm_num [svEmit_skip]
  rw [svEmit_cons _ _ _ (by omega)]
  simp

lemma rt_7 (v : Nat) (h1 : 4398046511104 ≤ v) (h2 : v < 562949953421312) (tail : List Nat) :
    deserialise_varint (serialise_varint [] v ++ tail) = (.ok v, tail) := by
  rw [sv_eq_7 v h1 h2]
  have h := dvLoop_decodes [v / 4398046511104, v / 34359738368 % 128, v / 268435456 % 128, v / 2097152 % 128, v / 16384 % 128, v / 128 % 128] 10 0 0 (v % 128)
    tail (by simp) (by intro x hx; simp at hx; rcases hx with rfl | rfl | rfl | rfl | rfl | rfl <;> omega) (by omega)
    (by intro _; simp; omega)
  simp only [List.map_cons, List.map_nil, List.foldl_cons, List.foldl_nil,
    List.cons_append, List.nil_append] at h
  rw [show decStep (decStep (decStep (decStep (decStep (decStep (decStep (0) (v / 4398046511104)) (v / 34359738368 % 128)) (v / 268435456 % 128)) (v / 2097152 % 128)) (v / 16384 % 128)) (v / 128 % 128)) (v % 128) = v by simp only [decStep]; omega] at h
  unfold deserialise_varint
  simp only [List.cons_append, List.nil_append]
  exact h

lemma sv_eq_8 (v : Nat) (h1 : 562949953421312 ≤ v) (h2 : v < 72057594037927936) :
    serialise_varint [] v =
      [128 + v / 562949953421312, 128 + v / 4398046511104 % 128, 128 + v / 34359738368 % 128, 128 + v / 268435456 % 128, 128 + v / 2097152 % 128, 128 + v / 16384 % 128, 128 + v / 128 % 128, v % 128] := by
  unfold serialise_varint
  rw [varintGroups_eq,
    show v / 9223372036854775808 % 2 = 0 by omega,
    show v / 72057594037927936 % 128 = 0 by omega,
    show v / 562949953421312 % 128 = v / 562949953421312 by omega]
  norm_num [svEmit_skip]
  rw [svEmit_cons _ _ _ (by omega)]
  simp

lemma rt_8 (v : Nat) (h1 : 562949953421312 ≤ v) (h2 : v < 72057594037927936) (tail : List Nat) :
    deserialise_varint (serialise_varint [] v ++ tail) = (.ok v, tail) := by
  rw [sv_eq_8 v h1 h2]
  have h := dvLoop_decodes [v / 562949953421312, v / 4398046511104 % 128, v / 34359738368 % 128, v / 268435456 % 128, v / 2097152 % 128, v / 16384 % 128, v / 128 % 128] 10 0 0 (v % 128)
    tail (by simp) (by intro x hx; simp at hx; rcases hx with rfl | rfl | rfl | rfl | rfl | rfl | rfl <;> omega) (by omega)
    (by intro _; simp; omega)
  simp only [List.map_cons, List.map_nil, List.foldl_cons, List.foldl_nil,
    List.cons_append, List.nil_append] at h
  rw [show decStep (decStep (decStep (decStep (decStep (decStep (decStep (decStep (0) (v / 562949953421312)) (v / 4398046511104 % 128)) (v / 34359738368 % 128)) (v / 268435456 % 128)) (v / 2097152 % 128)) (v / 16384 % 128)) (v / 128 % 128)) (v % 128) = v by simp only [decStep]; omega] at h
  unfold deserialise_varint
  simp only [List.cons_append, List.nil_append]
  exact h

lemma sv_eq_9 (v : Nat) (h1 : 72057594037927936 ≤ v) (h2 : v < 9223372036854775808) :
    serialise_varint [] v =
      [128 + v / 72057594037927936, 128 + v / 562949953421312 % 128, 128 + v / 4398046511104 % 128, 128 + v / 34359738368 % 128, 128 + v / 268435456 % 128, 128 + v / 2097152 % 128, 128 + v / 16384 % 128, 128 + v / 128 % 128, v % 128] := by
  unfold serialise_varint
  rw [varintGroups_eq,
    show v / 9223372036854775808 % 2 = 0 by omega,
    show v / 72057594037927936 % 128 = v / 72057594037927936 by omega]
  norm_num [svEmit_skip]
  rw [svEmit_cons _ _ _ (by omega)]
  simp

lemma rt_9 (v : Nat) (h1 : 72057594037927936 ≤ v) (h2 : v < 9223372036854775808) (tail : List Nat) :
    deserialise_varint (serialise_varint [] v ++ tail) = (.ok v, tail) := by
  rw [sv_eq_9 v h1 h2]
  have h := dvLoop_decodes [v / 72057594037927936, v / 562949953421312 % 128, v / 4398046511104 % 128, v / 34359738368 % 128, v / 268435456 % 128, v / 2097152 % 128, v / 16384 % 128, v / 128 % 128] 10 0 0 (v % 128)
    tail (by simp) (by intro x hx; simp at hx; rcases hx with rfl | rfl | rfl | rfl | rfl | rfl | rfl | rfl <;> omega) (by omega)
    (by intro _; simp; omega)
  simp only [List.map_cons, List.map_nil, List.foldl_cons, List.foldl_nil,
    List.cons_append, List.nil_append] at h
  rw [show decStep (decStep (decStep (decStep (decStep (decStep (decStep (decStep (decStep (0) (v / 72057594037927936)) (v / 562949953421312 % 128)) (v / 4398046511104 % 128)) (v / 34359738368 % 128)) (v / 268435456 % 128)) (v / 2097152 % 128)) (v / 16384 % 128)) (v / 128 % 128)) (v % 128) = v by simp only [decStep]; omega] at h
  unfold deserialise_varint
  simp only [List.cons_append, List.nil_append]
  exact h

lemma sv_eq_10 (v : Nat) (h1 : 9223372036854775808 ≤ v) (h2 : v < 18446744073709551616) :
    serialise_varint [] v =
      [128 + v / 9223372036854775808 % 2, 128 + v / 72057594037927936 % 128, 128 + v / 562949953421312 % 128, 128 + v / 4398046511104 % 128, 128 + v / 34359738368 % 128, 128 + v / 268435456 % 128, 128 + v / 2097152 % 128, 128 + v / 16384 % 128, 128 + v / 128 % 128, v % 128] := by
  unfold serialise_varint
  rw [varintGroups_eq]
  rw [svEmit_cons _ _ _ (by omega)]
  simp

lemma rt_10 (v : Nat) (h1 : 9223372036854775808 ≤ v) (h2 : v < 18446744073709551616) (tail : List Nat) :
    deserialise_varint (serialise_varint [] v ++ tail) = (.ok v, tail) := by
  rw [sv_eq_10 v h1 h2]
  have h := dvLoop_decodes [v / 9223372036854775808 % 2, v / 72057594037927936 % 128, v / 562949953421312 % 128, v / 4398046511104 % 128, v / 34359738368 % 128, v / 268435456 % 128, v / 2097152 % 128, v / 16384 % 128, v / 128 % 128] 10 0 0 (v % 128)
    tail (by simp) (by intro x hx; simp at hx; rcases hx with rfl | rfl | rfl | rfl | rfl | rfl | rfl | rfl | rfl <;> omega) (by omega)
    (by intro _; simp; omega)
  simp only [List.map_cons, List.map_nil, List.foldl_cons, List.foldl_nil,
    List.cons_append, List.nil_append] at h
  rw [show decStep (decStep (decStep (decStep (decStep (decStep (decStep (decStep (decStep (decStep (0) (v / 9223372036854775808 % 2)) (v / 72057594037927936 % 128)) (v / 562949953421312 % 128)) (v / 4398046511104 % 128)) (v / 34359738368 % 128)) (v / 268435456 % 128)) (v / 2097152 % 128)) (v / 16384 % 128)) (v / 128 % 128)) (v % 128) = v by simp only [decStep]; omega] at h
  unfold deserialise_varint
  simp only [List.cons_append, List.nil_append]
  exact h


/-! ## Combined varint round trip and minimality -/

lemma sv_decode (v : Nat) (hv : v < 2 ^ 64) (tail : List Nat) :
    deserialise_varint (serialise_varint [] v ++ tail) = (.ok v, tail) := by
  have hv10 : v < 18446744073709551616 := by omega
  rcases Nat.lt_or_ge v 128 with h | h1
  · exact rt_1 v h tail
  rcases Nat.lt_or_ge v 16384 with h | h2
  · exact rt_2 v h1 h tail
  rcases Nat.lt_or_ge v 2097152 with h | h3
  · exact rt_3 v h2 h tail
  rcases Nat.lt_or_ge v 268435456 with h | h4
  · exact rt_4 v h3 h tail
  rcases Nat.lt_or_ge v 34359738368 with h | h5
  · exact rt_5 v h4 h tail
  rcases Nat.lt_or_ge v 4398046511104 with h | h6
  · exact rt_6 v h5 h tail
  rcases Nat.lt_or_ge v 562949953421312 with h | h7
  · exact rt_7 v h6 h tail
  rcases Nat.lt_or_ge v 72057594037927936 with h | h8
  · exact rt_8 v h7 h tail
  rcases Nat.lt_or_ge v 9223372036854775808 with h | h9
  · exact rt_9 v h8 h tail
  exact rt_10 v h9 hv10 tail

lemma dvLoop_ok_bound :
    ∀ (fuel i acc : Nat) (inp : List Nat) (v : Nat) (rest : List Nat),
      dvLoop fuel i acc inp = (.ok v, rest) →
      ∃ c, 1 ≤ c ∧ c ≤ fuel ∧ inp.length = c + rest.length ∧
        v < (acc + 1) * 128 ^ c := by
  intro fuel
  induction fuel with
  | zero =>
    intro i acc inp v rest h
    simp [dvLoop] at h
  | succ fuel ih =>
    intro i acc inp v rest h
    match inp with
    | [] => simp [dvLoop] at h
    | byte :: inp1 =>
      simp only [dvLoop] at h
      by_cases hc : i = 0 ∧ byte = 128
      · simp [hc] at h
      · rw [if_neg hc, accStep] at h
        by_cases hterm : byte &&& 128 = 0
        · rw [if_pos hterm] at h
          simp only [Prod.mk.injEq, Except.ok.injEq] at h
          obtain ⟨hvv, hrest⟩ := h
          refine ⟨1, by omega, by omega, by simp [hrest]; omega, ?_⟩
          have hstep : decStep acc (byte % 128) < (acc + 1) * 128 := by
            simp only [decStep]
            have hmle : acc % 2 ^ 57 ≤ acc := Nat.mod_le acc _
            omega
          simpa [← hvv] using hstep
        · rw [if_neg hterm] at h
          obtain ⟨c, hc1, hcf, hlen, hbound⟩ :=
            ih (i + 1) (decStep acc (byte % 128)) inp1 v rest h
          refine ⟨c + 1, by omega, by omega, by simp [hlen]; omega, ?_⟩
          have hstep : decStep acc (byte % 128) + 1 ≤ (acc + 1) * 128 := by
            simp only [decStep]
            have hmle : acc % 2 ^ 57 ≤ acc := Nat.mod_le acc _
            omega
          calc v < (decStep acc (byte % 128) + 1) * 128 ^ c := hbound
            _ ≤ ((acc + 1) * 128) * 128 ^ c := Nat.mul_le_mul_right _ hstep
            _ = (acc + 1) * 128 ^ (c + 1) := by ring

lemma pow_gap (m c v : Nat) (hle : 128 ^ m ≤ v) (hlt : v < 128 ^ c) : m < c :=
  (Nat.pow_lt_pow_iff_right (by norm_num)).mp (lt_of_le_of_lt hle hlt)

lemma serialise_varint_length_le (v c : Nat) (hv : v < 18446744073709551616)
    (hc : 1 ≤ c) (h : v < 128 ^ c) : (serialise_varint [] v).length ≤ c := by
  rcases Nat.lt_or_ge v 128 with h1 | h1
  · rw [sv_eq_1 v h1]; simpa using hc
  rcases Nat.lt_or_ge v 16384 with h2 | h2
  · rw [sv_eq_2 v h1 h2]
    have := pow_gap 1 c v (by norm_num; omega) h
    simp only [List.length_cons, List.length_nil]; omega
  rcases Nat.lt_or_ge v 2097152 with h3 | h3
  · rw [sv_eq_3 v h2 h3]
    have := pow_gap 2 c v (by norm_num; omega) h
    simp only [List.length_cons, List.length_nil]; omega
  rcases Nat.lt_or_ge v 268435456 with h4 | h4
  · rw [sv_eq_4 v h3 h4]
    have := pow_gap 3 c v (by norm_num; omega) h
    simp only [List.length_cons, List.length_nil]; omega
  rcases Nat.lt_or_ge v 34359738368 with h5 | h5
  · rw [sv_eq_5 v h4 h5]
    have := pow_gap 4 c v (by norm_num; omega) h
    simp only [List.length_cons, List.length_nil]; omega
  rcases Nat.lt_or_ge v 4398046511104 with h6 | h6
  · rw [sv_eq_6 v h5 h6]
    have := pow_gap 5 c v (by norm_num; omega) h
    simp only [List.length_cons, List.length_nil]; omega
  rcases Nat.lt_or_ge v 562949953421312 with h7 | h7
  · rw [sv_eq_7 v h6 h7]
    have := pow_gap 6 c v (by norm_num; omega) h
    simp only [List.length_cons, List.length_nil]; omega
  rcases Nat.lt_or_ge v 72057594037927936 with h8 | h8
  · rw [sv_eq_8 v h7 h8]
    have := pow_gap 7 c v (by norm_num; omega) h
    simp only [List.length_cons, List.length_nil]; omega
  rcases Nat.lt_or_ge v 9223372036854775808 with h9 | h9
  · rw [sv_eq_9 v h8 h9]
    have := pow_gap 8 c v (by norm_num; omega) h
    simp only [List.length_cons, List.length_nil]; omega
  · rw [sv_eq_10 v h9 hv]
    have := pow_gap 9 c v (by norm_num; omega) h
    simp only [List.length_cons, List.length_nil]; omega

lemma dvLoop_no_malformed :
    ∀ (fuel i acc : Nat) (inp : List Nat), i ≠ 0 →
      (dvLoop fuel i acc inp).1 ≠ .error .malformedVarint := by
  intro fuel
  induction fuel with
  | zero => intro i acc inp _; simp [dvLoop]
  | succ fuel ih =>
    intro i acc inp hi
    match inp with
    | [] => simp [dvLoop]
    | byte :: rest =>
      simp only [dvLoop]
      rw [if_neg (by rintro ⟨h0, _⟩; exact hi h0)]
      by_cases hterm : byte &&& 128 = 0
      · simp [hterm]
      · rw [if_neg hterm]
        exact ih (i + 1) _ rest (by omega)


lemma dvLoop_malformed_iff (fuel : Nat) (hf : 1 ≤ fuel) (inp : List Nat) :
    (dvLoop fuel 0 0 inp).1 = .error .malformedVarint ↔
      inp.head? = some 128 := by
  obtain ⟨f, rfl⟩ : ∃ f, fuel = f + 1 := ⟨fuel - 1, by omega⟩
  match inp with
  | [] => simp [dvLoop]
  | byte :: rest =>
    by_cases hb : byte = 128
    · subst hb
      simp [dvLoop]
    · have hstep : dvLoop (f + 1) 0 0 (byte :: rest)
          = if byte &&& 128 = 0 then
              (.ok (((0 <<< 7) % 2 ^ 64) ||| (byte &&& 127)), rest)
            else
              dvLoop f 1 (((0 <<< 7) % 2 ^ 64) ||| (byte &&& 127)) rest := by
        simp only [dvLoop]
        rw [if_neg (by simp [hb])]
      rw [hstep]
      by_cases hterm : byte &&& 128 = 0
      · rw [if_pos hterm]
        simp [hb]
      · rw [if_neg hterm]
        constructor
        · intro h
          exact absurd h (dvLoop_no_malformed f 1 _ rest (by omega))
        · intro h
          simp only [List.head?_cons, Option.some.injEq] at h
          exact absurd h hb

/-! ## Line codec lemmas -/

lemma dvl_eq_ok (inp : List Nat) (len : Nat) (rest : List Nat)
    (h : deserialise_varint inp = (.ok len, rest)) :
    deserialise_varint_line inp =
      if len = 0 then (.error .emptyLine, rest)
      else if rest.length < len then (.error .ioError, [])
      else if (rest.take len).getLast? ≠ some 0x0a then
        (.error .missingTerminator, rest.drop len)
      else if validUtf8 (rest.take len).dropLast then
        (.ok (rest.take len).dropLast, rest.drop len)
      else
        (.error .invalidUtf8, rest.drop len) := by
  unfold deserialise_varint_line
  rw [h]

lemma dvl_eq_error (inp : List Nat) (e : MsErr) (rest : List Nat)
    (h : deserialise_varint inp = (.error e, rest)) :
    deserialise_varint_line inp = (.error e, rest) := by
  unfold deserialise_varint_line
  rw [h]

lemma dvl_frame (s : List Nat) (hutf : validUtf8 s = true)
    (hlen : s.length + 1 < 2 ^ 64) (tail : List Nat) :
    deserialise_varint_line (frame s ++ tail) = (.ok s, tail) := by
  have hshape : frame s ++ tail
      = serialise_varint [] (s.length + 1) ++ ((s ++ [0x0a]) ++ tail) := by
    simp [frame]
  have hlen2 : (s ++ [0x0a]).length = s.length + 1 := by simp
  have h1 : ¬(s.length + 1 = 0) := by omega
  have h2 : ¬(((s ++ [0x0a]) ++ tail).length < s.length + 1) := by simp
  have h3 : ((s ++ [0x0a]) ++ tail).take (s.length + 1) = s ++ [0x0a] := by
    rw [← hlen2]; exact List.take_left _ _
  have h4 : ((s ++ [0x0a]) ++ tail).drop (s.length + 1) = tail := by
    rw [← hlen2]; exact List.drop_left _ _
  rw [hshape,
    dvl_eq_ok _ (s.length + 1) ((s ++ [0x0a]) ++ tail) (sv_decode _ hlen _),
    if_neg h1, if_neg h2, h3, h4]
  simp [hutf]

/-! ## The claims about the two codecs -/

/-- C1: for every `u64` value `v`, decoding the bytes produced by
`serialise_varint` yields `v` with nothing left over, and that encoding is of
minimal length: any byte sequence the decoder consumes in full while
returning `v` is at least as long. -/
theorem varint_roundtrip_minimal (v : Nat) (hv : v < 2 ^ 64) :
    deserialise_varint (serialise_varint [] v) = (.ok v, []) ∧
      ∀ bs : List Nat, deserialise_varint bs = (.ok v, []) →
        (serialise_varint [] v).length ≤ bs.length := by
  constructor
  · simpa using sv_decode v hv []
  · intro bs hbs
    obtain ⟨c, hc1, hc10, hlen, hbound⟩ := dvLoop_ok_bound 10 0 0 bs v [] hbs
    simp only [List.length_nil] at hlen
    have hL := serialise_varint_length_le v c (by omega) hc1 (by simpa using hbound)
    omega

/-- Concrete instance of C1 at `v = 300`. -/
theorem varint_roundtrip_minimal_witness :
    (300 : Nat) < 2 ^ 64 ∧
      (deserialise_varint (serialise_varint [] 300) = (.ok 300, []) ∧
        ∀ bs : List Nat, deserialise_varint bs = (.ok 300, []) →
          (serialise_varint [] 300).length ≤ bs.length) :=
  ⟨by norm_num, varint_roundtrip_minimal 300 (by norm_num)⟩

/-- C2: for every valid-UTF-8 byte sequence `s` containing no newline byte
whose length plus one fits in `u64`, serialising a line and then decoding a
line from exactly those bytes succeeds and returns `s`. -/
theorem line_roundtrip (s : List Nat) (hutf : validUtf8 s = true)
    (hnl : 10 ∉ s) (hlen : s.length + 1 < 2 ^ 64) :
    serialise_varint_line [] s = .ok (frame s) ∧
      deserialise_varint_line (frame s) = (.ok s, []) := by
  refine ⟨?_, by simpa using dvl_frame s hutf hlen []⟩
  unfold serialise_varint_line frame
  rw [if_pos hlen]

/-- Concrete instance of C2 at `s = "hi"`. -/
theorem line_roundtrip_witness :
    (validUtf8 [104, 105] = true ∧ 10 ∉ [104, 105] ∧
        [104, 105].length + 1 < 2 ^ 64) ∧
      (serialise_varint_line [] [104, 105] = .ok (frame [104, 105]) ∧
        deserialise_varint_line (frame [104, 105]) = (.ok [104, 105], [])) :=
  ⟨⟨by decide, by decide, by norm_num⟩,
    line_roundtrip [104, 105] (by decide) (by decide) (by norm_num)⟩

/-- C8: `deserialise_varint` fails with `malformedVarint` exactly when the
first byte of the stream is `0x80`; a non-minimal encoding whose first byte
differs from `0x80` is accepted, e.g. the ten-byte sequence
`82 80 80 80 80 80 80 80 80 00` decodes to `0`, whose minimal encoding `[0]`
has length 1. -/
theorem varint_malformed_iff :
    (∀ inp : List Nat,
        (deserialise_varint inp).1 = .error .malformedVarint ↔
          inp.head? = some 0x80) ∧
      deserialise_varint [0x82, 0x80, 0x80, 0x80, 0x80, 0x80, 0x80, 0x80,
          0x80, 0x00] = (.ok 0, []) ∧
      serialise_varint [] 0 = [0x00] := by
  refine ⟨fun inp => dvLoop_malformed_iff 10 (by omega) inp, by rfl, by rfl⟩

/-- C9: a successful `serialise_varint_line` call appends exactly
`varint(length + 1) || text || 0x0A` after the previous buffer contents,
which are preserved unmodified. -/
theorem serialise_line_appends (dst text : List Nat)
    (h : text.length + 1 < 2 ^ 64) :
    serialise_varint_line dst text
      = .ok (dst ++ (serialise_varint [] (text.length + 1) ++ text ++ [0x0a])) := by
  unfold serialise_varint_line
  rw [if_pos h, serialise_varint_append]
  simp

/-- Concrete instance of C9 with a non-empty pre-existing buffer. -/
theorem serialise_line_appends_witness :
    ([104, 105] : List Nat).length + 1 < 2 ^ 64 ∧
      serialise_varint_line [1, 2] [104, 105]
        = .ok ([1, 2] ++ (serialise_varint [] ([104, 105].length + 1) ++
            [104, 105] ++ [0x0a])) :=
  ⟨by norm_num, serialise_line_appends [1, 2] [104, 105] (by norm_num)⟩


/-! ## Negotiation engine lemmas -/

lemma svl_ok (dst s : List Nat) (h : s.length + 1 < 2 ^ 64) :
    serialise_varint_line dst s = .ok (dst ++ frame s) := by
  unfold serialise_varint_line frame
  rw [if_pos h, serialise_varint_append]
  simp

lemma version_length : MULTISTREAM_PROTOCOL.length + 1 < 2 ^ 64 := by
  norm_num [MULTISTREAM_PROTOCOL]

lemma na_length : naBytes.length + 1 < 2 ^ 64 := by
  norm_num [naBytes]

lemma version_utf8 : validUtf8 MULTISTREAM_PROTOCOL = true := by rfl

lemma na_utf8 : validUtf8 naBytes = true := by rfl

lemma initiate_cons (inp out : List Nat) (p0 : List Nat) (ps : List (List Nat)) :
    initiate ⟨inp, out⟩ (p0 :: ps)
      = initiateLoop inp out (frame MULTISTREAM_PROTOCOL) 0 (p0 :: ps) := rfl

lemma readResp_of_ok (inp : List Nat) (i : Nat) (resp : List Nat)
    (inp1 : List Nat) (h : deserialise_varint_line inp = (.ok resp, inp1)) :
    readResp inp i =
      if i = 0 then
        if resp ≠ MULTISTREAM_PROTOCOL then (.error .unexpectedVersion, inp1)
        else deserialise_varint_line inp1
      else (.ok resp, inp1) := by
  unfold readResp
  rw [h]

lemma readResp_pos (inp : List Nat) (i : Nat) (hi : i ≠ 0) (resp inp1 : List Nat)
    (h : deserialise_varint_line inp = (.ok resp, inp1)) :
    readResp inp i = (.ok resp, inp1) := by
  rw [readResp_of_ok inp i resp inp1 h, if_neg hi]

lemma initiateLoop_cons_ok (inp out hm : List Nat) (i : Nat) (p : List Nat)
    (ps : List (List Nat)) (msg : List Nat)
    (hs : serialise_varint_line hm p = .ok msg)
    (resp inp1 : List Nat)
    (hr : readResp inp i = (.ok resp, inp1)) :
    initiateLoop inp out hm i (p :: ps) =
      if resp = p then (.ok (some i), ⟨inp1, out ++ msg⟩)
      else if resp ≠ naBytes then
        (.error .unexpectedResponse, ⟨inp1, out ++ msg⟩)
      else initiateLoop inp1 (out ++ msg) [] (i + 1) ps := by
  conv_lhs => rw [initiateLoop]
  rw [hs, hr]

lemma initiateLoop_cons_err (inp out hm : List Nat) (i : Nat) (p : List Nat)
    (ps : List (List Nat)) (msg : List Nat)
    (hs : serialise_varint_line hm p = .ok msg)
    (e : MsErr) (inp1 : List Nat)
    (hr : readResp inp i = (.error e, inp1)) :
    initiateLoop inp out hm i (p :: ps) = (.error e, ⟨inp1, out ++ msg⟩) := by
  conv_lhs => rw [initiateLoop]
  rw [hs, hr]

lemma framesOf_cons (p : List Nat) (ps : List (List Nat)) :
    framesOf (p :: ps) = frame p ++ framesOf ps := by
  simp [framesOf]

lemma framesOf_nil : framesOf [] = [] := rfl

lemma naFrames_zero : naFrames 0 = [] := rfl

lemma naFrames_succ (k : Nat) :
    naFrames (k + 1) = frame naBytes ++ naFrames k := by
  simp [naFrames, List.replicate_succ, framesOf_cons]

lemma loop_select (pre : List (List Nat)) :
    ∀ (target : List Nat) (post : List (List Nat)) (i0 : Nat)
      (out tail : List Nat),
      i0 ≠ 0 →
      (∀ p ∈ pre, p ≠ naBytes) →
      (∀ p ∈ pre, p.length + 1 < 2 ^ 64) →
      target.length + 1 < 2 ^ 64 →
      validUtf8 target = true →
      initiateLoop (naFrames pre.length ++ frame target ++ tail) out [] i0
          (pre ++ target :: post)
        = (.ok (some (i0 + pre.length)),
            ⟨tail, out ++ framesOf (pre ++ [target])⟩) := by
  induction pre with
  | nil =>
    intro target post i0 out tail hi0 _ _ hlt hutf
    simp only [List.length_nil]
    have hsl := svl_ok [] target hlt
    have hrd : readResp (naFrames 0 ++ frame target ++ tail) i0
        = (.ok target, tail) := by
      rw [naFrames_zero, List.nil_append]
      exact readResp_pos _ i0 hi0 target tail (dvl_frame target hutf hlt tail)
    rw [List.nil_append,
      initiateLoop_cons_ok _ _ _ _ _ _ _ hsl target tail hrd, if_pos rfl]
    simp [framesOf_cons, framesOf_nil]
  | cons p pre ih =>
    intro target post i0 out tail hi0 hna hlens hlt hutf
    have hpna : p ≠ naBytes := hna p (by simp)
    have hsl := svl_ok [] p (hlens p (by simp))
    have hrd : readResp (naFrames (p :: pre).length ++ frame target ++ tail) i0
        = (.ok naBytes, naFrames pre.length ++ frame target ++ tail) := by
      have hsh : naFrames (p :: pre).length ++ frame target ++ tail
          = frame naBytes ++ (naFrames pre.length ++ frame target ++ tail) := by
        simp [naFrames_succ, List.append_assoc]
      rw [hsh]
      exact readResp_pos _ i0 hi0 _ _ (dvl_frame naBytes na_utf8 na_length _)
    rw [List.cons_append,
      initiateLoop_cons_ok _ _ _ _ _ _ _ hsl _ _ hrd,
      if_neg (fun h => hpna h.symm), if_neg (by simp),
      ih target post (i0 + 1) (out ++ ([] ++ frame p)) tail (by omega)
        (fun q hq => hna q (by simp [hq]))
        (fun q hq => hlens q (by simp [hq])) hlt hutf]
    have hidx : i0 + 1 + pre.length = i0 + (p :: pre).length := by
      simp
      omega
    rw [hidx]
    simp [framesOf_cons, List.append_assoc]

lemma loop_unexpected (pre : List (List Nat)) :
    ∀ (pk : List Nat) (post : List (List Nat)) (r : List Nat) (i0 : Nat)
      (out tail : List Nat),
      i0 ≠ 0 →
      (∀ p ∈ pre, p ≠ naBytes) →
      (∀ p ∈ pre, p.length + 1 < 2 ^ 64) →
      pk.length + 1 < 2 ^ 64 →
      r ≠ pk → r ≠ naBytes → validUtf8 r = true → r.length + 1 < 2 ^ 64 →
      initiateLoop (naFrames pre.length ++ frame r ++ tail) out [] i0
          (pre ++ pk :: post)
        = (.error .unexpectedResponse,
            ⟨tail, out ++ framesOf (pre ++ [pk])⟩) := by
  induction pre with
  | nil =>
    intro pk post r i0 out tail hi0 _ _ hlk hrk hrna hrutf hrlen
    simp only [List.length_nil]
    have hsl := svl_ok [] pk hlk
    have hrd : readResp (naFrames 0 ++ frame r ++ tail) i0 = (.ok r, tail) := by
      rw [naFrames_zero, List.nil_append]
      exact readResp_pos _ i0 hi0 r tail (dvl_frame r hrutf hrlen tail)
    rw [List.nil_append,
      initiateLoop_cons_ok _ _ _ _ _ _ _ hsl r tail hrd,
      if_neg hrk, if_pos hrna]
    simp [framesOf_cons, framesOf_nil]
  | cons p pre ih =>
    intro pk post r i0 out tail hi0 hna hlens hlk hrk hrna hrutf hrlen
    have hpna : p ≠ naBytes := hna p (by simp)
    have hsl := svl_ok [] p (hlens p (by simp))
    have hrd : readResp (naFrames (p :: pre).length ++ frame r ++ tail) i0
        = (.ok naBytes, naFrames pre.length ++ frame r ++ tail) := by
      have hsh : naFrames (p :: pre).length ++ frame r ++ tail
          = frame naBytes ++ (naFrames pre.length ++ frame r ++ tail) := by
        simp [naFrames_succ, List.append_assoc]
      rw [hsh]
      exact readResp_pos _ i0 hi0 _ _ (dvl_frame naBytes na_utf8 na_length _)
    rw [List.cons_append,
      initiateLoop_cons_ok _ _ _ _ _ _ _ hsl _ _ hrd,
      if_neg (fun h => hpna h.symm), if_neg (by simp),
      ih pk post r (i0 + 1) (out ++ ([] ++ frame p)) tail (by omega)
        (fun q hq => hna q (by simp [hq]))
        (fun q hq => hlens q (by simp [hq])) hlk hrk hrna hrutf hrlen]
    simp [framesOf_cons, List.append_assoc]

lemma loop_nomatch (ps : List (List Nat)) :
    ∀ (i0 : Nat) (out tail : List Nat),
      i0 ≠ 0 →
      (∀ p ∈ ps, p ≠ naBytes) →
      (∀ p ∈ ps, p.length + 1 < 2 ^ 64) →
      initiateLoop (naFrames ps.length ++ tail) out [] i0 ps
        = (.ok none, ⟨tail, out ++ framesOf ps⟩) := by
  induction ps with
  | nil =>
    intro i0 out tail _ _ _
    simp only [List.length_nil]
    rw [naFrames_zero, List.nil_append]
    simp [initiateLoop, framesOf_nil]
  | cons p ps ih =>
    intro i0 out tail hi0 hna hlens
    have hpna : p ≠ naBytes := hna p (by simp)
    have hsl := svl_ok [] p (hlens p (by simp))
    have hrd : readResp (naFrames (p :: ps).length ++ tail) i0
        = (.ok naBytes, naFrames ps.length ++ tail) := by
      have hsh : naFrames (p :: ps).length ++ tail
          = frame naBytes ++ (naFrames ps.length ++ tail) := by
        simp [naFrames_succ, List.append_assoc]
      rw [hsh]
      exact readResp_pos _ i0 hi0 _ _ (dvl_frame naBytes na_utf8 na_length _)
    rw [initiateLoop_cons_ok _ _ _ _ _ _ _ hsl _ _ hrd,
      if_neg (fun h => hpna h.symm), if_neg (by simp),
      ih (i0 + 1) (out ++ ([] ++ frame p)) tail (by omega)
        (fun q hq => hna q (by simp [hq]))
        (fun q hq => hlens q (by simp [hq]))]
    simp [framesOf_cons, List.append_assoc]

lemma initiate_round0 (p0 : List Nat) (ps : List (List Nat))
    (resp tail : List Nat)
    (hl0 : p0.length + 1 < 2 ^ 64)
    (hrutf : validUtf8 resp = true) (hrlen : resp.length + 1 < 2 ^ 64) :
    initiate ⟨frame MULTISTREAM_PROTOCOL ++ frame resp ++ tail, []⟩ (p0 :: ps)
      = (if resp = p0 then
           (.ok (some 0), ⟨tail, frame MULTISTREAM_PROTOCOL ++ frame p0⟩)
         else if resp ≠ naBytes then
           (.error .unexpectedResponse,
             ⟨tail, frame MULTISTREAM_PROTOCOL ++ frame p0⟩)
         else
           initiateLoop tail (frame MULTISTREAM_PROTOCOL ++ frame p0) [] 1
             ps) := by
  rw [initiate_cons]
  have hsl := svl_ok (frame MULTISTREAM_PROTOCOL) p0 hl0
  have hv : deserialise_varint_line
        (frame MULTISTREAM_PROTOCOL ++ frame resp ++ tail)
      = (.ok MULTISTREAM_PROTOCOL, frame resp ++ tail) := by
    simpa [List.append_assoc] using
      dvl_frame MULTISTREAM_PROTOCOL version_utf8 version_length
        (frame resp ++ tail)
  have hrd : readResp (frame MULTISTREAM_PROTOCOL ++ frame resp ++ tail) 0
      = (.ok resp, tail) := by
    rw [readResp_of_ok _ 0 _ _ hv, if_pos rfl, if_neg (by simp)]
    exact dvl_frame resp hrutf hrlen tail
  rw [initiateLoop_cons_ok _ _ _ _ _ _ _ hsl resp tail hrd]
  simp only [List.nil_append]


/-! ## The claims about the negotiation engine

The candidate list is written `pre ++ target :: post`, so the round index
`i` of the spec is `pre.length`, the candidates proposed before round `i`
are `pre`, and `target` is `candidates[i]`. -/

/-- C3: if the peer echoes the version, rejects the first `pre.length`
candidates with `"na"` and then replies with exactly `candidates[i]`
(`i = pre.length`, no earlier candidate being the literal `"na"`), then
`initiate` returns `Ok (some i)` immediately: the stream is fully consumed
and only the version line and candidates `0..i` were ever proposed. -/
theorem initiate_selects (pre : List (List Nat)) (target : List Nat)
    (post : List (List Nat))
    (hna : ∀ p ∈ pre, p ≠ naBytes)
    (hlp : ∀ p ∈ pre, p.length + 1 < 2 ^ 64)
    (hlt : target.length + 1 < 2 ^ 64)
    (hutf : validUtf8 target = true) :
    initiate
        ⟨frame MULTISTREAM_PROTOCOL ++ naFrames pre.length ++ frame target, []⟩
        (pre ++ target :: post)
      = (.ok (some pre.length),
          ⟨[], frame MULTISTREAM_PROTOCOL ++ framesOf (pre ++ [target])⟩) := by
  cases pre with
  | nil =>
    have h := initiate_round0 target post target [] hlt hutf hlt
    rw [if_pos rfl] at h
    simpa [naFrames_zero, framesOf_cons, framesOf_nil] using h
  | cons p pre =>
    have h := initiate_round0 p (pre ++ target :: post) naBytes
        (naFrames pre.length ++ frame target) (hlp p (by simp)) na_utf8
        na_length
    rw [if_neg (fun hh => (hna p (by simp)) hh.symm), if_neg (by simp)] at h
    have hloop := loop_select pre target post 1
        (frame MULTISTREAM_PROTOCOL ++ frame p) [] (by omega)
        (fun q hq => hna q (by simp [hq]))
        (fun q hq => hlp q (by simp [hq])) hlt hutf
    simp only [List.append_nil] at hloop
    rw [hloop] at h
    rw [show 1 + pre.length = pre.length + 1 by omega] at h
    simpa [naFrames_succ, framesOf_cons, List.append_assoc] using h

/-- Concrete instance of C3: candidates `["a", "b"]`, peer replies the
version, `"na"`, then `"b"`; the outcome is `Selected(1)`. -/
theorem initiate_selects_witness :
    ((∀ p ∈ ([[97]] : List (List Nat)), p ≠ naBytes) ∧
        (∀ p ∈ ([[97]] : List (List Nat)), p.length + 1 < 2 ^ 64) ∧
        ([98] : List Nat).length + 1 < 2 ^ 64 ∧ validUtf8 [98] = true) ∧
      initiate ⟨frame MULTISTREAM_PROTOCOL ++ naFrames 1 ++ frame [98], []⟩
          [[97], [98]]
        = (.ok (some 1),
            ⟨[], frame MULTISTREAM_PROTOCOL ++ framesOf [[97], [98]]⟩) :=
  ⟨⟨by decide, by decide, by decide, by rfl⟩,
    initiate_selects [[97]] [98] [] (by decide) (by decide) (by decide)
      (by rfl)⟩

/-- C4: if the peer echoes the version and rejects every candidate with
`"na"` (no candidate being the literal `"na"`), `initiate` returns
`Ok none` — a non-error outcome — after proposing every candidate exactly
once. -/
theorem initiate_nomatch (p0 : List Nat) (ps : List (List Nat))
    (hna : ∀ p ∈ p0 :: ps, p ≠ naBytes)
    (hlp : ∀ p ∈ p0 :: ps, p.length + 1 < 2 ^ 64) :
    initiate ⟨frame MULTISTREAM_PROTOCOL ++ naFrames (p0 :: ps).length, []⟩
        (p0 :: ps)
      = (.ok none,
          ⟨[], frame MULTISTREAM_PROTOCOL ++ framesOf (p0 :: ps)⟩) := by
  have h := initiate_round0 p0 ps naBytes (naFrames ps.length)
      (hlp p0 (by simp)) na_utf8 na_length
  rw [if_neg (fun hh => (hna p0 (by simp)) hh.symm), if_neg (by simp)] at h
  have hloop := loop_nomatch ps 1 (frame MULTISTREAM_PROTOCOL ++ frame p0) []
      (by omega) (fun q hq => hna q (by simp [hq]))
      (fun q hq => hlp q (by simp [hq]))
  simp only [List.append_nil] at hloop
  rw [hloop] at h
  simpa [naFrames_succ, framesOf_cons, List.append_assoc] using h

/-- Concrete instance of C4: one candidate `"a"`, peer replies the version
then `"na"`; the outcome is `NoMatch`. -/
theorem initiate_nomatch_witness :
    ((∀ p ∈ ([[97]] : List (List Nat)), p ≠ naBytes) ∧
        (∀ p ∈ ([[97]] : List (List Nat)), p.length + 1 < 2 ^ 64)) ∧
      initiate ⟨frame MULTISTREAM_PROTOCOL ++ naFrames 1, []⟩ [[97]]
        = (.ok none, ⟨[], frame MULTISTREAM_PROTOCOL ++ framesOf [[97]]⟩) :=
  ⟨⟨by decide, by decide⟩,
    initiate_nomatch [97] [] (by decide) (by decide)⟩

/-- C5: with a non-empty candidate list, if the first decoded line is not
exactly `"/multistream/1.0.0"` then `initiate` fails with
`unexpectedVersion`; if it is, a second line is decoded and that second
line is the one compared against the first candidate (selecting on
equality, rejecting softly only on `"na"`). -/
theorem initiate_version_gate (p0 : List Nat) (ps : List (List Nat))
    (inp r inp1 : List Nat)
    (hl0 : p0.length + 1 < 2 ^ 64)
    (hr : deserialise_varint_line inp = (.ok r, inp1)) :
    (r ≠ MULTISTREAM_PROTOCOL →
        initiate ⟨inp, []⟩ (p0 :: ps)
          = (.error .unexpectedVersion,
              ⟨inp1, frame MULTISTREAM_PROTOCOL ++ frame p0⟩)) ∧
      (r = MULTISTREAM_PROTOCOL → ∀ r2 inp2,
        deserialise_varint_line inp1 = (.ok r2, inp2) →
        initiate ⟨inp, []⟩ (p0 :: ps)
          = (if r2 = p0 then
               (.ok (some 0), ⟨inp2, frame MULTISTREAM_PROTOCOL ++ frame p0⟩)
             else if r2 ≠ naBytes then
               (.error .unexpectedResponse,
                 ⟨inp2, frame MULTISTREAM_PROTOCOL ++ frame p0⟩)
             else
               initiateLoop inp2 (frame MULTISTREAM_PROTOCOL ++ frame p0) []
                 1 ps)) := by
  constructor
  · intro hne
    rw [initiate_cons]
    have hrd : readResp inp 0 = (.error .unexpectedVersion, inp1) := by
      rw [readResp_of_ok _ 0 _ _ hr, if_pos rfl, if_pos hne]
    rw [initiateLoop_cons_err _ _ _ _ _ _ _ (svl_ok _ _ hl0) _ _ hrd]
    simp
  · intro heq r2 inp2 hr2
    subst heq
    rw [initiate_cons]
    have hrd : readResp inp 0 = (.ok r2, inp2) := by
      rw [readResp_of_ok _ 0 _ _ hr, if_pos rfl, if_neg (by simp)]
      exact hr2
    rw [initiateLoop_cons_ok _ _ _ _ _ _ _ (svl_ok _ _ hl0) _ _ hrd]
    simp

/-- Concrete instance of C5: the peer's first line is `"x"`, not the
version literal, and `initiate` fails with `unexpectedVersion`. -/
theorem initiate_version_gate_witness :
    (([97] : List Nat).length + 1 < 2 ^ 64 ∧
        deserialise_varint_line (frame [120]) = (.ok [120], []) ∧
        ([120] : List Nat) ≠ MULTISTREAM_PROTOCOL) ∧
      initiate ⟨frame [120], []⟩ [[97]]
        = (.error .unexpectedVersion,
            ⟨[], frame MULTISTREAM_PROTOCOL ++ frame [97]⟩) :=
  ⟨⟨by decide, by rfl, by decide⟩,
    (initiate_version_gate [97] [] (frame [120]) [120] [] (by decide)
        (by rfl)).1 (by decide)⟩

/-- C6: if, in round `i = pre.length`, the decoded reply is neither
`candidates[i]` nor `"na"` (earlier rounds being clean rejections after a
correct version echo), `initiate` fails with `unexpectedResponse` and no
candidate beyond index `i` is proposed. -/
theorem initiate_unexpected (pre : List (List Nat)) (pk : List Nat)
    (post : List (List Nat)) (r : List Nat)
    (hna : ∀ p ∈ pre, p ≠ naBytes)
    (hlp : ∀ p ∈ pre, p.length + 1 < 2 ^ 64)
    (hlk : pk.length + 1 < 2 ^ 64)
    (hrk : r ≠ pk) (hrna : r ≠ naBytes)
    (hrutf : validUtf8 r = true) (hrlen : r.length + 1 < 2 ^ 64) :
    initiate ⟨frame MULTISTREAM_PROTOCOL ++ naFrames pre.length ++ frame r, []⟩
        (pre ++ pk :: post)
      = (.error .unexpectedResponse,
          ⟨[], frame MULTISTREAM_PROTOCOL ++ framesOf (pre ++ [pk])⟩) := by
  cases pre with
  | nil =>
    have h := initiate_round0 pk post r [] hlk hrutf hrlen
    rw [if_neg hrk, if_pos hrna] at h
    simpa [naFrames_zero, framesOf_cons, framesOf_nil] using h
  | cons p pre =>
    have h := initiate_round0 p (pre ++ pk :: post) naBytes
        (naFrames pre.length ++ frame r) (hlp p (by simp)) na_utf8 na_length
    rw [if_neg (fun hh => (hna p (by simp)) hh.symm), if_neg (by simp)] at h
    have hloop := loop_unexpected pre pk post r 1
        (frame MULTISTREAM_PROTOCOL ++ frame p) [] (by omega)
        (fun q hq => hna q (by simp [hq]))
        (fun q hq => hlp q (by simp [hq])) hlk hrk hrna hrutf hrlen
    simp only [List.append_nil] at hloop
    rw [hloop] at h
    simpa [naFrames_succ, framesOf_cons, List.append_assoc] using h

/-- Concrete instance of C6: one candidate `"a"`, peer echoes the version
then replies `"c"`; `initiate` fails with `unexpectedResponse`. -/
theorem initiate_unexpected_witness :
    ((∀ p ∈ ([] : List (List Nat)), p ≠ naBytes) ∧
        ([97] : List Nat).length + 1 < 2 ^ 64 ∧
        ([99] : List Nat) ≠ [97] ∧ ([99] : List Nat) ≠ naBytes ∧
        validUtf8 [99] = true) ∧
      initiate ⟨frame MULTISTREAM_PROTOCOL ++ naFrames 0 ++ frame [99], []⟩
          [[97]]
        = (.error .unexpectedResponse,
            ⟨[], frame MULTISTREAM_PROTOCOL ++ framesOf [[97]]⟩) :=
  ⟨⟨by decide, by decide, by decide, by decide, by rfl⟩,
    initiate_unexpected [] [97] [] [99] (by decide) (by decide) (by decide)
      (by decide) (by decide) (by rfl) (by decide)⟩

/-- C7: with an empty candidate list `initiate` fails with
`emptyProtocolList` and the stream is untouched: nothing is read and
nothing is written, whatever the stream holds. -/
theorem initiate_empty (inp out : List Nat) :
    initiate ⟨inp, out⟩ [] = (.error .emptyProtocolList, ⟨inp, out⟩) := rfl

/-- C10: if `candidates[i]` is the literal `"na"` itself (earlier
candidates being rejected normally), a peer reply of `"na"` in round `i`
is taken as acceptance: the equality test against the candidate runs
before the rejection-token test, so `initiate` returns `Ok (some i)`. -/
theorem initiate_na_candidate (pre : List (List Nat)) (post : List (List Nat))
    (hna : ∀ p ∈ pre, p ≠ naBytes)
    (hlp : ∀ p ∈ pre, p.length + 1 < 2 ^ 64) :
    initiate
        ⟨frame MULTISTREAM_PROTOCOL ++ naFrames pre.length ++ frame naBytes,
          []⟩
        (pre ++ naBytes :: post)
      = (.ok (some pre.length),
          ⟨[], frame MULTISTREAM_PROTOCOL ++ framesOf (pre ++ [naBytes])⟩) := by
  cases pre with
  | nil =>
    have h := initiate_round0 naBytes post naBytes [] na_length na_utf8
        na_length
    rw [if_pos rfl] at h
    simpa [naFrames_zero, framesOf_cons, framesOf_nil] using h
  | cons p pre =>
    have h := initiate_round0 p (pre ++ naBytes :: post) naBytes
        (naFrames pre.length ++ frame naBytes) (hlp p (by simp)) na_utf8
        na_length
    rw [if_neg (fun hh => (hna p (by simp)) hh.symm), if_neg (by simp)] at h
    have hloop := loop_select pre naBytes post 1
        (frame MULTISTREAM_PROTOCOL ++ frame p) [] (by omega)
        (fun q hq => hna q (by simp [hq]))
        (fun q hq => hlp q (by simp [hq])) na_length na_utf8
    simp only [List.append_nil] at hloop
    rw [hloop] at h
    rw [show 1 + pre.length = pre.length + 1 by omega] at h
    simpa [naFrames_succ, framesOf_cons, List.append_assoc] using h

/-- Concrete instance of C10: candidates `["a", "na"]`, peer replies the
version, `"na"` (rejecting `"a"`), then `"na"` again; `initiate` treats the
second `"na"` as acceptance of the candidate named `"na"`, yielding
`Selected(1)`. -/
theorem initiate_na_candidate_witness :
    ((∀ p ∈ ([[97]] : List (List Nat)), p ≠ naBytes) ∧
        (∀ p ∈ ([[97]] : List (List Nat)), p.length + 1 < 2 ^ 64)) ∧
      initiate
          ⟨frame MULTISTREAM_PROTOCOL ++ naFrames 1 ++ frame naBytes, []⟩
          [[97], naBytes]
        = (.ok (some 1),
            ⟨[], frame MULTISTREAM_PROTOCOL ++ framesOf [[97], naBytes]⟩) :=
  ⟨⟨by decide, by decide⟩,
    initiate_na_candidate [[97]] [] (by decide) (by decide)⟩

end Multistream
